import Mathlib

/-!
Shallow embedding of the Techwave grade-management service (Go).

The service is a CRUD API over student enrollment records with a
cache-aside Redis layer.  We embed:

* `Enrollment` and `Enrollment.Validate`   (models/enrollment.go)
* `EnrollmentRepository` operations        (repository/enrollment_repository.go)
* `EnrollmentCache` operations             (cache/enrollment_cache.go)
* the HTTP handlers as state transformers  (handlers/enrollment_handler.go)
* a pointer-level repository model (`PtrRepo`) making the Go
  `map[string]*models.Enrollment` aliasing explicit.

Go's `time.Time` is modelled as `Nat`; the zero `time.Time` (the value
`IsZero` tests for) is `0`.  Go maps are modelled as association lists
with the update/delete operations `mput` / `mdel` below.
-/

/-- Association-list lookup, modelling Go map read `m[k]`. -/
def mfind {α β : Type} [DecidableEq α] : List (α × β) → α → Option β
  | [], _ => none
  | (k, v) :: rest, a => if k = a then some v else mfind rest a

/-- Association-list deletion of every binding of `k`, modelling Go `delete(m, k)`. -/
def mdel {α β : Type} [DecidableEq α] : List (α × β) → α → List (α × β)
  | [], _ => []
  | (k, v) :: rest, a => if k = a then mdel rest a else (k, v) :: mdel rest a

/-- Association-list update, modelling Go map assignment `m[k] = v`. -/
def mput {α β : Type} [DecidableEq α] (m : List (α × β)) (k : α) (v : β) : List (α × β) :=
  (k, v) :: mdel m k

/-- The enrollment record (models/enrollment.go `Enrollment`); `time.Time`
fields are modelled as `Nat`, the zero time being `0`. -/
structure Enrollment where
  ID : String
  StudentID : String
  CourseID : String
  EnrollmentDate : Nat
  Status : String
  CreatedAt : Nat
  UpdatedAt : Nat
deriving DecidableEq, Repr

/-- models/enrollment.go `ValidStatuses`: the allowed status values. -/
def ValidStatuses (s : String) : Bool :=
  s = "pending" || s = "active" || s = "completed"

/-- models/enrollment.go `Enrollment.Validate`: returns the first failing
business rule's message, `none` when validation passes. -/
def Enrollment.Validate (e : Enrollment) : Option String :=
  if e.StudentID = "" then some "student_id is required"
  else if e.CourseID = "" then some "course_id is required"
  else if e.Status = "" then some "status is required"
  else if ¬ ValidStatuses e.Status then
    some "status must be one of: pending, active, completed"
  else none

/-- Repository errors (repository/enrollment_repository.go `ErrNotFound`,
`ErrAlreadyExists`). -/
inductive RepoErr where
  | notFound
  | alreadyExists
deriving DecidableEq, Repr

/-- The repository's in-memory store `map[string]*models.Enrollment`,
modelled at the value level (the pointer-level model is `PtrRepo` below). -/
abbrev EnrollmentRepository := List (String × Enrollment)

/-- repository `Create`: fails with `alreadyExists` when the record's ID is
already a key, otherwise stores the record under its own ID. -/
def EnrollmentRepository.Create (r : EnrollmentRepository) (enrollment : Enrollment) :
    Except RepoErr EnrollmentRepository :=
  match mfind r enrollment.ID with
  | some _ => .error .alreadyExists
  | none => .ok (mput r enrollment.ID enrollment)

/-- repository `GetByID`: fails with `notFound` when absent, otherwise
returns the stored record. -/
def EnrollmentRepository.GetByID (r : EnrollmentRepository) (id : String) :
    Except RepoErr Enrollment :=
  match mfind r id with
  | some e => .ok e
  | none => .error .notFound

/-- repository `GetAll`: every stored record, in storage order. -/
def EnrollmentRepository.GetAll (r : EnrollmentRepository) : List Enrollment :=
  r.map (fun p => p.2)

/-- repository `Update`: fails with `notFound` when the id is absent;
otherwise replaces the stored record in full with a copy of the argument
whose ID field is overwritten with the lookup id. -/
def EnrollmentRepository.Update (r : EnrollmentRepository) (id : String)
    (enrollment : Enrollment) : Except RepoErr EnrollmentRepository :=
  match mfind r id with
  | none => .error .notFound
  | some _ => .ok (mput r id { enrollment with ID := id })

/-- repository `Delete`: fails with `notFound` when absent, otherwise
removes the binding. -/
def EnrollmentRepository.Delete (r : EnrollmentRepository) (id : String) :
    Except RepoErr EnrollmentRepository :=
  match mfind r id with
  | none => .error .notFound
  | some _ => .ok (mdel r id)

/-- The Redis cache contents (cache/enrollment_cache.go), modelled at the
record level: the Go layer stores the JSON serialization of the record
under key `"enrollment:" ++ id`; since serialization round-trips, we keep
the record itself keyed by id. -/
abbrev EnrollmentCache := List (String × Enrollment)

/-- cache `Get` in the reliable case (Redis reachable, entry deserializes):
`none` models the `redis.Nil` miss, `some e` the hit.  The error outcome of
the Go `Get` is modelled separately by `CacheGetResult` below. -/
def EnrollmentCache.Get (c : EnrollmentCache) (id : String) : Option Enrollment :=
  mfind c id

/-- cache `Set`: stores the record under its own ID (`buildKey(enrollment.ID)`). -/
def EnrollmentCache.Set (c : EnrollmentCache) (enrollment : Enrollment) : EnrollmentCache :=
  mput c enrollment.ID enrollment

/-- cache `Delete`: removes any entry for the id (absence is not an error). -/
def EnrollmentCache.Delete (c : EnrollmentCache) (id : String) : EnrollmentCache :=
  mdel c id

/-- The three outcomes of the Go `EnrollmentCache.Get` as seen by the
handler: `(e, nil)` hit, `(nil, nil)` miss on `redis.Nil`, `(nil, err)` on a
Redis transport or unmarshal error. -/
inductive CacheGetResult where
  | hit (e : Enrollment)
  | missNil
  | errRedis
deriving DecidableEq, Repr

/-- Observable `X-Cache-Status` header value on a successful read. -/
inductive CacheStatus where
  | HIT
  | MISS
deriving DecidableEq, Repr

/-- HTTP-level outcome of `GetEnrollment` as observed by the client. -/
inductive HandlerResp where
  | okHIT (e : Enrollment)
  | okMISS (e : Enrollment)
  | respNotFound
deriving DecidableEq, Repr

/-- Observable trace of one `GetEnrollment` request: the response, whether
the repository was consulted, and the record written to the cache (if any). -/
structure GetTrace where
  resp : HandlerResp
  storeConsulted : Bool
  cachePopulated : Option Enrollment
deriving DecidableEq, Repr

/-- handlers `GetEnrollment`, branch structure made explicit over the cache
lookup outcome `cr`: the Go guard `err == nil && cachedEnrollment != nil`
selects the HIT branch exactly on `hit e`; both the `redis.Nil` miss and the
error outcome fall through to the repository, and a successful repository
read is pushed into the cache (`h.cache.Set`). -/
def GetEnrollmentTrace (cr : CacheGetResult) (r : EnrollmentRepository) (id : String) :
    GetTrace :=
  match cr with
  | .hit e => { resp := .okHIT e, storeConsulted := false, cachePopulated := none }
  | _ =>
    match EnrollmentRepository.GetByID r id with
    | .ok e => { resp := .okMISS e, storeConsulted := true, cachePopulated := some e }
    | .error _ => { resp := .respNotFound, storeConsulted := true, cachePopulated := none }

/-- Joint state of the record store and the cache layer. -/
structure SystemState where
  store : EnrollmentRepository
  cache : EnrollmentCache
deriving DecidableEq, Repr

/-- Outcome of a read-by-id at the HTTP boundary. -/
inductive ReadResult where
  | ok (st : CacheStatus) (e : Enrollment)
  | notFound
deriving DecidableEq, Repr

/-- handlers `GetEnrollment` as a state transformer (reliable cache): try the
cache; on hit answer HIT without touching the store; on miss read the store,
populate the cache with the freshly read record and answer MISS; when the
store also misses answer 404 and leave both components unchanged. -/
def GetEnrollment (σ : SystemState) (id : String) : ReadResult × SystemState :=
  match EnrollmentCache.Get σ.cache id with
  | some e => (.ok .HIT e, σ)
  | none =>
    match EnrollmentRepository.GetByID σ.store id with
    | .ok e => (.ok .MISS e, { σ with cache := EnrollmentCache.Set σ.cache e })
    | .error _ => (.notFound, σ)

/-- Outcome of a create at the HTTP boundary. -/
inductive CreateResult where
  | created (e : Enrollment)
  | badRequest (msg : String)
  | conflict
deriving DecidableEq, Repr

/-- The record actually persisted by `CreateEnrollment` after stamping: the
handler overwrites ID with the fresh UUID (`newId`), sets both timestamps to
the current time, and defaults a zero `EnrollmentDate` to the current time.
The three `time.Now()` calls of the handler are modelled as one instant. -/
def stampCreate (payload : Enrollment) (newId : String) (now : Nat) : Enrollment :=
  { payload with
      ID := newId
      CreatedAt := now
      UpdatedAt := now
      EnrollmentDate := if payload.EnrollmentDate = 0 then now else payload.EnrollmentDate }

/-- handlers `CreateEnrollment`: validate the decoded payload, stamp it, and
store it; the cache is never consulted or written.  `newId` stands for the
generated `uuid.New().String()` and `now` for `time.Now()`. -/
def CreateEnrollment (σ : SystemState) (payload : Enrollment) (newId : String) (now : Nat) :
    CreateResult × SystemState :=
  match payload.Validate with
  | some msg => (.badRequest msg, σ)
  | none =>
    match EnrollmentRepository.Create σ.store (stampCreate payload newId now) with
    | .error _ => (.conflict, σ)
    | .ok st => (.created (stampCreate payload newId now), { σ with store := st })

/-- Outcome of an update at the HTTP boundary. -/
inductive UpdateResult where
  | ok (e : Enrollment)
  | badRequest (msg : String)
  | notFound
deriving DecidableEq, Repr

/-- handlers `UpdateEnrollment`: validate the decoded payload, force its ID
to the path id and refresh `UpdatedAt`, write the replacement to the store,
and only on store success delete the cache entry for the id; on store
`NotFound` respond 404 with the cache untouched. -/
def UpdateEnrollment (σ : SystemState) (id : String) (payload : Enrollment) (now : Nat) :
    UpdateResult × SystemState :=
  match payload.Validate with
  | some msg => (.badRequest msg, σ)
  | none =>
    match EnrollmentRepository.Update σ.store id { payload with ID := id, UpdatedAt := now } with
    | .error _ => (.notFound, σ)
    | .ok st =>
        (.ok { payload with ID := id, UpdatedAt := now },
         { store := st, cache := EnrollmentCache.Delete σ.cache id })

/-- Outcome of a delete at the HTTP boundary. -/
inductive DeleteResult where
  | ok
  | notFound
deriving DecidableEq, Repr

/-- handlers `DeleteEnrollment`: delete from the store; only on success
delete the cache entry; on store `NotFound` respond 404 with both
components unchanged. -/
def DeleteEnrollment (σ : SystemState) (id : String) : DeleteResult × SystemState :=
  match EnrollmentRepository.Delete σ.store id with
  | .error _ => (.notFound, σ)
  | .ok st => (.ok, { store := st, cache := EnrollmentCache.Delete σ.cache id })

/-- Heap addresses for the pointer-level repository model. -/
abbrev Loc := Nat

/-- Pointer-level model of the repository: the Go store is
`map[string]*models.Enrollment`, i.e. a map from id to a heap pointer.
`enrollments` maps ids to locations, `heap` gives each allocated location
its current record, `nextLoc` is the allocator bump pointer. -/
structure PtrRepo where
  enrollments : List (String × Loc)
  heap : List (Loc × Enrollment)
  nextLoc : Loc
deriving DecidableEq, Repr

/-- The freshly constructed repository (`NewEnrollmentRepository`). -/
def PtrRepo.empty : PtrRepo :=
  { enrollments := [], heap := [], nextLoc := 0 }

/-- Dereference a location, i.e. read `*p` for a `*models.Enrollment`. -/
def PtrRepo.deref (r : PtrRepo) (p : Loc) : Option Enrollment :=
  mfind r.heap p

/-- Caller-side mutation through a pointer obtained from the repository,
e.g. `enrollment.Status = "active"` on the returned `*models.Enrollment`. -/
def PtrRepo.writeLoc (r : PtrRepo) (p : Loc) (e : Enrollment) : PtrRepo :=
  { r with heap := mput r.heap p e }

/-- Pointer-level repository `Create`: the caller's record lives in a fresh
heap cell (the Go handler passes `&enrollment`), and the repository stores
that pointer under the record's ID. -/
def PtrRepo.Create (r : PtrRepo) (e : Enrollment) : Except RepoErr PtrRepo :=
  match mfind r.enrollments e.ID with
  | some _ => .error .alreadyExists
  | none =>
      .ok { enrollments := mput r.enrollments e.ID r.nextLoc
            heap := mput r.heap r.nextLoc e
            nextLoc := r.nextLoc + 1 }

/-- Pointer-level repository `GetByID`: returns the pointer stored in the
map (`return enrollment, nil` returns the map's `*models.Enrollment`
unchanged, with no copy). -/
def PtrRepo.GetByID (r : PtrRepo) (id : String) : Except RepoErr Loc :=
  match mfind r.enrollments id with
  | some p => .ok p
  | none => .error .notFound

/-- store key/id coherence: every key holds a record whose ID field equals
that key. -/
def StoreCoherent (r : EnrollmentRepository) : Prop :=
  ∀ k e, mfind r k = some e → e.ID = k

/-- every cached id is backed by a store entry. -/
def CacheBacked (σ : SystemState) : Prop :=
  ∀ k, (EnrollmentCache.Get σ.cache k).isSome = true → (mfind σ.store k).isSome = true

/-- joint invariant of the reliable-cache system. -/
def SysInv (σ : SystemState) : Prop :=
  StoreCoherent σ.store ∧ CacheBacked σ

/-- States of the reliable-cache system reachable from the initial empty
state through the four HTTP handlers. -/
inductive SysReach : SystemState → Prop where
  | init : SysReach { store := [], cache := [] }
  | stepCreate {σ : SystemState} (payload : Enrollment) (newId : String) (now : Nat) :
      SysReach σ → SysReach (CreateEnrollment σ payload newId now).2
  | stepRead {σ : SystemState} (id : String) :
      SysReach σ → SysReach (GetEnrollment σ id).2
  | stepUpdate {σ : SystemState} (id : String) (payload : Enrollment) (now : Nat) :
      SysReach σ → SysReach (UpdateEnrollment σ id payload now).2
  | stepDelete {σ : SystemState} (id : String) :
      SysReach σ → SysReach (DeleteEnrollment σ id).2

/-- Repository states reachable from the empty map through successful
`Create`, `Update` and `Delete` calls. -/
inductive RepoReach : EnrollmentRepository → Prop where
  | init : RepoReach []
  | stepCreate {r r' : EnrollmentRepository} (e : Enrollment) :
      RepoReach r → EnrollmentRepository.Create r e = .ok r' → RepoReach r'
  | stepUpdate {r r' : EnrollmentRepository} (id : String) (e : Enrollment) :
      RepoReach r → EnrollmentRepository.Update r id e = .ok r' → RepoReach r'
  | stepDelete {r r' : EnrollmentRepository} (id : String) :
      RepoReach r → EnrollmentRepository.Delete r id = .ok r' → RepoReach r'

/-- Concrete record used by the closed evaluation theorems: a stored
enrollment with nonzero timestamps. -/
def wEnr : Enrollment :=
  { ID := "e1", StudentID := "s1", CourseID := "c1", EnrollmentDate := 3,
    Status := "pending", CreatedAt := 5, UpdatedAt := 5 }

/-- Concrete update/create payload as decoded from a JSON body that omits
the timestamp fields (decoded Go zero values, modelled as 0). -/
def wPay : Enrollment :=
  { ID := "ignored", StudentID := "s2", CourseID := "c2", EnrollmentDate := 0,
    Status := "active", CreatedAt := 0, UpdatedAt := 0 }

/-- Pointer-level repository holding `wEnr` at location 0 under key `"e1"`. -/
def wRepo1 : PtrRepo :=
  { enrollments := [("e1", 0)], heap := [(0, wEnr)], nextLoc := 1 }

/-- Concrete system state with `wEnr` in the store and an empty cache. -/
def wState : SystemState := { store := [("e1", wEnr)], cache := [] }

theorem mfind_mdel {α β : Type} [DecidableEq α] (m : List (α × β)) (k a : α) :
    mfind (mdel m k) a = if a = k then none else mfind m a := by
  induction m with
  | nil => simp [mdel, mfind]
  | cons p rest ih =>
    obtain ⟨pk, pv⟩ := p
    by_cases h1 : pk = k
    · subst h1
      by_cases h2 : a = pk
      · subst h2
        simp [mdel, mfind, ih]
      · have h3 : ¬ pk = a := fun hc => h2 hc.symm
        simp [mdel, mfind, h2, h3, ih]
    · by_cases h2 : pk = a
      · have h3 : ¬ a = k := fun hc => h1 (h2.trans hc)
        simp [mdel, mfind, h1, h2, h3]
      · simp [mdel, mfind, h1, h2, ih]

theorem mfind_mput {α β : Type} [DecidableEq α] (m : List (α × β)) (k a : α) (v : β) :
    mfind (mput m k v) a = if a = k then some v else mfind m a := by
  by_cases h : a = k
  · simp [mput, mfind, h]
  · have h2 : ¬ k = a := fun hc => h hc.symm
    simp [mput, mfind, h, h2, mfind_mdel]

theorem mfind_mput_self {α β : Type} [DecidableEq α] (m : List (α × β)) (k : α) (v : β) :
    mfind (mput m k v) k = some v := by
  simp [mfind_mput]

theorem mfind_mdel_self {α β : Type} [DecidableEq α] (m : List (α × β)) (k : α) :
    mfind (mdel m k) k = none := by
  simp [mfind_mdel]

theorem storeCoherent_create {r r' : EnrollmentRepository} {e : Enrollment}
    (hc : StoreCoherent r) (h : EnrollmentRepository.Create r e = .ok r') :
    StoreCoherent r' := by
  unfold EnrollmentRepository.Create at h
  cases hf : mfind r e.ID with
  | some e0 => rw [hf] at h; exact absurd h (by simp)
  | none =>
    rw [hf] at h
    cases h
    intro k v hkv
    rw [mfind_mput] at hkv
    by_cases hk : k = e.ID
    · rw [if_pos hk] at hkv
      cases hkv
      exact hk.symm
    · rw [if_neg hk] at hkv
      exact hc k v hkv

theorem storeCoherent_update {r r' : EnrollmentRepository} {id : String} {e : Enrollment}
    (hc : StoreCoherent r) (h : EnrollmentRepository.Update r id e = .ok r') :
    StoreCoherent r' := by
  unfold EnrollmentRepository.Update at h
  cases hf : mfind r id with
  | none => rw [hf] at h; exact absurd h (by simp)
  | some e0 =>
    rw [hf] at h
    cases h
    intro k v hkv
    rw [mfind_mput] at hkv
    by_cases hk : k = id
    · rw [if_pos hk] at hkv
      cases hkv
      exact hk.symm
    · rw [if_neg hk] at hkv
      exact hc k v hkv

theorem storeCoherent_delete {r r' : EnrollmentRepository} {id : String}
    (hc : StoreCoherent r) (h : EnrollmentRepository.Delete r id = .ok r') :
    StoreCoherent r' := by
  unfold EnrollmentRepository.Delete at h
  cases hf : mfind r id with
  | none => rw [hf] at h; exact absurd h (by simp)
  | some e0 =>
    rw [hf] at h
    cases h
    intro k v hkv
    rw [mfind_mdel] at hkv
    by_cases hk : k = id
    · rw [if_pos hk] at hkv; cases hkv
    · rw [if_neg hk] at hkv
      exact hc k v hkv

theorem sysInv_create {σ : SystemState} (h : SysInv σ)
    (payload : Enrollment) (newId : String) (now : Nat) :
    SysInv (CreateEnrollment σ payload newId now).2 := by
  obtain ⟨hco, hcb⟩ := h
  unfold CreateEnrollment
  cases hv : payload.Validate with
  | some msg => exact ⟨hco, hcb⟩
  | none =>
    cases hcr : EnrollmentRepository.Create σ.store (stampCreate payload newId now) with
    | error e => exact ⟨hco, hcb⟩
    | ok st =>
      refine ⟨storeCoherent_create hco hcr, ?_⟩
      intro k hk
      have hb := hcb k hk
      unfold EnrollmentRepository.Create at hcr
      cases hf : mfind σ.store (stampCreate payload newId now).ID with
      | some e0 => rw [hf] at hcr; exact absurd hcr (by simp)
      | none =>
        rw [hf] at hcr
        cases hcr
        rw [mfind_mput]
        by_cases hkk : k = (stampCreate payload newId now).ID
        · rw [if_pos hkk]; rfl
        · rw [if_neg hkk]; exact hb

theorem sysInv_read {σ : SystemState} (h : SysInv σ) (id : String) :
    SysInv (GetEnrollment σ id).2 := by
  obtain ⟨hco, hcb⟩ := h
  unfold GetEnrollment
  cases hg : EnrollmentCache.Get σ.cache id with
  | some e => exact ⟨hco, hcb⟩
  | none =>
    cases hr : EnrollmentRepository.GetByID σ.store id with
    | error e => exact ⟨hco, hcb⟩
    | ok e =>
      refine ⟨hco, ?_⟩
      intro k hk
      unfold EnrollmentRepository.GetByID at hr
      cases hf : mfind σ.store id with
      | none => rw [hf] at hr; exact absurd hr (by simp)
      | some e0 =>
        rw [hf] at hr
        cases hr
        have heid : e.ID = id := hco id e hf
        simp only [EnrollmentCache.Get, EnrollmentCache.Set, mfind_mput] at hk
        by_cases hkk : k = e.ID
        · subst hkk
          rw [heid, hf]
          rfl
        · rw [if_neg hkk] at hk
          exact hcb k hk

theorem sysInv_update {σ : SystemState} (h : SysInv σ)
    (id : String) (payload : Enrollment) (now : Nat) :
    SysInv (UpdateEnrollment σ id payload now).2 := by
  obtain ⟨hco, hcb⟩ := h
  unfold UpdateEnrollment
  cases hv : payload.Validate with
  | some msg => exact ⟨hco, hcb⟩
  | none =>
    cases hu : EnrollmentRepository.Update σ.store id { payload with ID := id, UpdatedAt := now } with
    | error e => exact ⟨hco, hcb⟩
    | ok st =>
      refine ⟨storeCoherent_update hco hu, ?_⟩
      intro k hk
      simp only [EnrollmentCache.Get, EnrollmentCache.Delete, mfind_mdel] at hk
      by_cases hkk : k = id
      · rw [if_pos hkk] at hk; exact absurd hk (by simp)
      · rw [if_neg hkk] at hk
        have hb := hcb k hk
        unfold EnrollmentRepository.Update at hu
        cases hf : mfind σ.store id with
        | none => rw [hf] at hu; exact absurd hu (by simp)
        | some e0 =>
          rw [hf] at hu
          cases hu
          rw [mfind_mput, if_neg hkk]
          exact hb

theorem sysInv_delete {σ : SystemState} (h : SysInv σ) (id : String) :
    SysInv (DeleteEnrollment σ id).2 := by
  obtain ⟨hco, hcb⟩ := h
  unfold DeleteEnrollment
  cases hd : EnrollmentRepository.Delete σ.store id with
  | error e => exact ⟨hco, hcb⟩
  | ok st =>
    refine ⟨storeCoherent_delete hco hd, ?_⟩
    intro k hk
    simp only [EnrollmentCache.Get, EnrollmentCache.Delete, mfind_mdel] at hk
    by_cases hkk : k = id
    · rw [if_pos hkk] at hk; exact absurd hk (by simp)
    · rw [if_neg hkk] at hk
      have hb := hcb k hk
      unfold EnrollmentRepository.Delete at hd
      cases hf : mfind σ.store id with
      | none => rw [hf] at hd; exact absurd hd (by simp)
      | some e0 =>
        rw [hf] at hd
        cases hd
        rw [mfind_mdel, if_neg hkk]
        exact hb

theorem sysReach_inv {σ : SystemState} (h : SysReach σ) : SysInv σ := by
  induction h with
  | init =>
    constructor
    · intro k e hk; cases hk
    · intro k hk; exact hk
  | stepCreate payload newId now _ ih => exact sysInv_create ih payload newId now
  | stepRead id _ ih => exact sysInv_read ih id
  | stepUpdate id payload now _ ih => exact sysInv_update ih id payload now
  | stepDelete id _ ih => exact sysInv_delete ih id

/-- C1: Read-by-id follows the cache-aside protocol: for every id, when the
cache layer returns a value the handler responds with that cached snapshot
and status HIT without consulting the record store; when the cache reports
not-found (redis.Nil) or errors and the record store holds the record, the
handler populates the cache with the freshly read record and responds with
that record and status MISS. -/
theorem C1_cache_aside_read (cr : CacheGetResult) (r : EnrollmentRepository) (id : String) :
    (∀ e, cr = .hit e →
      GetEnrollmentTrace cr r id =
        { resp := .okHIT e, storeConsulted := false, cachePopulated := none })
    ∧ ((cr = .missNil ∨ cr = .errRedis) → ∀ e, mfind r id = some e →
      GetEnrollmentTrace cr r id =
        { resp := .okMISS e, storeConsulted := true, cachePopulated := some e }) := by
  constructor
  · rintro e rfl
    rfl
  · rintro (rfl | rfl) e he <;>
      simp [GetEnrollmentTrace, EnrollmentRepository.GetByID, he]

theorem C1_cache_aside_read_witness :
    GetEnrollmentTrace (.hit wEnr) [("e1", wEnr)] "e1" =
      { resp := .okHIT wEnr, storeConsulted := false, cachePopulated := none }
    ∧ GetEnrollmentTrace .missNil [("e1", wEnr)] "e1" =
      { resp := .okMISS wEnr, storeConsulted := true, cachePopulated := some wEnr }
    ∧ GetEnrollmentTrace .errRedis [("e1", wEnr)] "e1" =
      { resp := .okMISS wEnr, storeConsulted := true, cachePopulated := some wEnr } :=
  ⟨(C1_cache_aside_read (.hit wEnr) [("e1", wEnr)] "e1").1 wEnr rfl,
   (C1_cache_aside_read .missNil [("e1", wEnr)] "e1").2 (Or.inl rfl) wEnr (by decide),
   (C1_cache_aside_read .errRedis [("e1", wEnr)] "e1").2 (Or.inr rfl) wEnr (by decide)⟩

/-- C8: for every id present in the store and every replacement record, a
successful update replaces the stored record in full with the replacement
whose ID field is forced to the lookup id, regardless of the id embedded in
the replacement; update on an absent id fails with NotFound. -/
theorem C8_update_forces_id (r : EnrollmentRepository) (id : String) (e : Enrollment) :
    (∀ e0, mfind r id = some e0 →
       EnrollmentRepository.Update r id e = .ok (mput r id { e with ID := id })
       ∧ mfind (mput r id { e with ID := id }) id = some { e with ID := id }
       ∧ Enrollment.ID { e with ID := id } = id)
    ∧ (mfind r id = none → EnrollmentRepository.Update r id e = .error .notFound) := by
  constructor
  · intro e0 h
    refine ⟨?_, mfind_mput_self r id _, rfl⟩
    simp [EnrollmentRepository.Update, h]
  · intro h
    simp [EnrollmentRepository.Update, h]

theorem C8_update_forces_id_witness :
    (EnrollmentRepository.Update [("e1", wEnr)] "e1" wPay =
        .ok (mput [("e1", wEnr)] "e1" { wPay with ID := "e1" })
      ∧ mfind (mput [("e1", wEnr)] "e1" { wPay with ID := "e1" }) "e1" =
        some { wPay with ID := "e1" }
      ∧ Enrollment.ID { wPay with ID := "e1" } = "e1")
    ∧ EnrollmentRepository.Update [] "e1" wPay = .error .notFound :=
  ⟨(C8_update_forces_id [("e1", wEnr)] "e1" wPay).1 wEnr (by decide),
   (C8_update_forces_id [] "e1" wPay).2 rfl⟩

/-- C9: store key/id coherence invariant: in every repository state
reachable through Create, Update and Delete from the empty store, each map
key holds a record whose ID field equals that key. -/
theorem C9_store_key_coherence (r : EnrollmentRepository) (h : RepoReach r) :
    StoreCoherent r := by
  induction h with
  | init => intro k e hk; cases hk
  | stepCreate e _ hok ih => exact storeCoherent_create ih hok
  | stepUpdate id e _ hok ih => exact storeCoherent_update ih hok
  | stepDelete id _ hok ih => exact storeCoherent_delete ih hok

theorem C9_store_key_coherence_witness :
    RepoReach [("e1", wEnr)] ∧ Enrollment.ID wEnr = "e1" :=
  have h0 : EnrollmentRepository.Create [] wEnr = .ok [("e1", wEnr)] := rfl
  have hr : RepoReach [("e1", wEnr)] := RepoReach.stepCreate wEnr RepoReach.init h0
  ⟨hr, C9_store_key_coherence [("e1", wEnr)] hr "e1" wEnr (by decide)⟩

/-- C2: for every id, update writes the full replacement to the record
store first and deletes the cache entry for that id only when the store
update succeeds; when the store update fails with NotFound, no cache
operation is performed and the whole state (cache entry included) is left
unchanged. -/
theorem C2_update_invalidates_only_on_success (σ : SystemState) (id : String)
    (payload : Enrollment) (now : Nat) (hv : payload.Validate = none) :
    (mfind σ.store id = none →
       UpdateEnrollment σ id payload now = (.notFound, σ))
    ∧ (∀ e0, mfind σ.store id = some e0 →
       UpdateEnrollment σ id payload now =
         (.ok { payload with ID := id, UpdatedAt := now },
          { store := mput σ.store id { payload with ID := id, UpdatedAt := now },
            cache := EnrollmentCache.Delete σ.cache id })) := by
  constructor
  · intro habs
    simp [UpdateEnrollment, hv, EnrollmentRepository.Update, habs]
  · intro e0 hsome
    simp [UpdateEnrollment, hv, EnrollmentRepository.Update, hsome]

theorem C2_update_invalidates_only_on_success_witness :
    UpdateEnrollment { store := [], cache := [("e1", wEnr)] } "e1" wPay 9 =
      (.notFound, { store := [], cache := [("e1", wEnr)] })
    ∧ UpdateEnrollment wState "e1" wPay 9 =
      (.ok { wPay with ID := "e1", UpdatedAt := 9 },
       { store := mput wState.store "e1" { wPay with ID := "e1", UpdatedAt := 9 },
         cache := EnrollmentCache.Delete wState.cache "e1" }) :=
  ⟨(C2_update_invalidates_only_on_success
      { store := [], cache := [("e1", wEnr)] } "e1" wPay 9 (by decide)).1 rfl,
   (C2_update_invalidates_only_on_success wState "e1" wPay 9 (by decide)).2 wEnr (by decide)⟩

/-- C3 (evaluation at the failing input): a successful full-replacement
update does NOT leave `CreatedAt` at the value set at creation: the stored
record had `CreatedAt = 5`, the update request omits `created_at` (decoded
zero value), and after the update the stored `CreatedAt` is 0, not 5 —
while `UpdatedAt` is refreshed to the update instant.  This contradicts the
repository documentation ("created_at remains unchanged"). -/
theorem C3_createdAt_not_preserved :
    (mfind (UpdateEnrollment wState "e1" wPay 9).2.store "e1").map Enrollment.CreatedAt
      = some 0
    ∧ (mfind wState.store "e1").map Enrollment.CreatedAt = some 5
    ∧ (mfind (UpdateEnrollment wState "e1" wPay 9).2.store "e1").map Enrollment.UpdatedAt
      = some 9 := by
  decide

/-- C4 (evaluation at the failing input): `GetByID` returns the pointer
stored in the repository's map, not an immune copy: after creating a record
and reading it back, a caller-side write through the returned pointer
changes what a subsequent `GetByID` for the same id dereferences to. -/
theorem C4_getByID_shares_mutable_state :
    PtrRepo.Create PtrRepo.empty wEnr = .ok wRepo1
    ∧ PtrRepo.GetByID wRepo1 "e1" = .ok 0
    ∧ PtrRepo.deref wRepo1 0 = some wEnr
    ∧ PtrRepo.GetByID (wRepo1.writeLoc 0 { wEnr with Status := "active" }) "e1" = .ok 0
    ∧ PtrRepo.deref (wRepo1.writeLoc 0 { wEnr with Status := "active" }) 0 =
        some { wEnr with Status := "active" }
    ∧ ({ wEnr with Status := "active" } : Enrollment) ≠ wEnr := by
  refine ⟨rfl, rfl, by decide, rfl, by decide, by decide⟩

/-- C10: a successful full-replacement update whose request payload omits
`enrollment_date` (decoded zero value) stores the zero time as the record's
enrollment date — the previous stored value is discarded — whereas create
defaults a zero `enrollment_date` to the current time. -/
theorem C10_update_zeroes_enrollment_date (σ : SystemState) (id : String)
    (payload : Enrollment) (now : Nat) (e0 : Enrollment)
    (hv : payload.Validate = none)
    (hz : payload.EnrollmentDate = 0)
    (h : mfind σ.store id = some e0) :
    (mfind (UpdateEnrollment σ id payload now).2.store id =
       some { payload with ID := id, UpdatedAt := now }
     ∧ Enrollment.EnrollmentDate { payload with ID := id, UpdatedAt := now } = 0)
    ∧ ∀ newId, Enrollment.EnrollmentDate (stampCreate payload newId now) = now := by
  refine ⟨⟨?_, hz⟩, ?_⟩
  · simp [UpdateEnrollment, hv, EnrollmentRepository.Update, h, mfind_mput_self]
  · intro newId
    simp [stampCreate, hz]

theorem C10_update_zeroes_enrollment_date_witness :
    (mfind (UpdateEnrollment wState "e1" wPay 9).2.store "e1" =
       some { wPay with ID := "e1", UpdatedAt := 9 }
     ∧ Enrollment.EnrollmentDate { wPay with ID := "e1", UpdatedAt := 9 } = 0)
    ∧ Enrollment.EnrollmentDate (stampCreate wPay "n1" 9) = 9 :=
  ⟨(C10_update_zeroes_enrollment_date wState "e1" wPay 9 wEnr
      (by decide) (by decide) (by decide)).1,
   (C10_update_zeroes_enrollment_date wState "e1" wPay 9 wEnr
      (by decide) (by decide) (by decide)).2 "n1"⟩

/-- C5: for every reachable state and every id absent from the record
store, a read-by-id surfaces NotFound to the caller, changes nothing, and
performs no cache population: after the read the cache layer holds no entry
for that id (negative results are never cached). -/
theorem C5_no_negative_caching (σ : SystemState) (h : SysReach σ) (id : String)
    (habs : mfind σ.store id = none) :
    GetEnrollment σ id = (.notFound, σ)
    ∧ EnrollmentCache.Get (GetEnrollment σ id).2.cache id = none := by
  have hinv := sysReach_inv h
  have hc : EnrollmentCache.Get σ.cache id = none := by
    cases hg : EnrollmentCache.Get σ.cache id with
    | none => rfl
    | some e =>
      have hb := hinv.2 id (by rw [hg]; rfl)
      rw [habs] at hb
      exact absurd hb (by simp)
  have hmain : GetEnrollment σ id = (.notFound, σ) := by
    simp [GetEnrollment, hc, EnrollmentRepository.GetByID, habs]
  exact ⟨hmain, by rw [hmain]; exact hc⟩

theorem C5_no_negative_caching_witness :
    SysReach { store := [], cache := [] }
    ∧ GetEnrollment { store := [], cache := [] } "ghost" =
        (.notFound, { store := [], cache := [] })
    ∧ EnrollmentCache.Get
        (GetEnrollment { store := [], cache := [] } "ghost").2.cache "ghost" = none :=
  have h := C5_no_negative_caching { store := [], cache := [] } SysReach.init "ghost" rfl
  ⟨SysReach.init, h.1, h.2⟩

/-- C6: for every valid payload and fresh id, create goes directly to the
record store leaving the cache untouched, and create followed immediately by
read-by-id on the generated id returns the same (equal) stamped record, the
first read reporting MISS (and warming the cache) and a second identical
read reporting HIT. -/
theorem C6_create_then_read (σ : SystemState) (payload : Enrollment) (newId : String)
    (now : Nat)
    (hv : payload.Validate = none)
    (hfs : mfind σ.store newId = none)
    (hfc : EnrollmentCache.Get σ.cache newId = none) :
    CreateEnrollment σ payload newId now =
      (.created (stampCreate payload newId now),
       { store := mput σ.store newId (stampCreate payload newId now), cache := σ.cache })
    ∧ GetEnrollment
        { store := mput σ.store newId (stampCreate payload newId now), cache := σ.cache }
        newId =
      (.ok .MISS (stampCreate payload newId now),
       { store := mput σ.store newId (stampCreate payload newId now),
         cache := EnrollmentCache.Set σ.cache (stampCreate payload newId now) })
    ∧ GetEnrollment
        { store := mput σ.store newId (stampCreate payload newId now),
          cache := EnrollmentCache.Set σ.cache (stampCreate payload newId now) }
        newId =
      (.ok .HIT (stampCreate payload newId now),
       { store := mput σ.store newId (stampCreate payload newId now),
         cache := EnrollmentCache.Set σ.cache (stampCreate payload newId now) }) := by
  have hid : (stampCreate payload newId now).ID = newId := rfl
  refine ⟨?_, ?_, ?_⟩
  · simp [CreateEnrollment, hv, EnrollmentRepository.Create, hid, hfs]
  · have hfc2 : mfind σ.cache newId = none := hfc
    simp [GetEnrollment, EnrollmentCache.Get, hfc2, EnrollmentRepository.GetByID,
      mfind_mput_self]
  · simp [GetEnrollment, EnrollmentCache.Get, EnrollmentCache.Set, mfind_mput, hid]

theorem C6_create_then_read_witness :
    CreateEnrollment { store := [], cache := [] } wPay "n1" 7 =
      (.created (stampCreate wPay "n1" 7),
       { store := mput [] "n1" (stampCreate wPay "n1" 7), cache := [] })
    ∧ GetEnrollment { store := mput [] "n1" (stampCreate wPay "n1" 7), cache := [] } "n1" =
      (.ok .MISS (stampCreate wPay "n1" 7),
       { store := mput [] "n1" (stampCreate wPay "n1" 7),
         cache := EnrollmentCache.Set [] (stampCreate wPay "n1" 7) })
    ∧ GetEnrollment
        { store := mput [] "n1" (stampCreate wPay "n1" 7),
          cache := EnrollmentCache.Set [] (stampCreate wPay "n1" 7) } "n1" =
      (.ok .HIT (stampCreate wPay "n1" 7),
       { store := mput [] "n1" (stampCreate wPay "n1" 7),
         cache := EnrollmentCache.Set [] (stampCreate wPay "n1" 7) }) :=
  C6_create_then_read { store := [], cache := [] } wPay "n1" 7 (by decide) rfl rfl

/-- C7: for every stored record, delete succeeds and a following read-by-id
on the same id fails with NotFound, and a second delete on the same id also
fails with NotFound rather than crashing (all operations are total
functions; deleting an absent id is a NotFound error, never a success). -/
theorem C7_delete_then_notFound (σ : SystemState) (id : String) (e0 : Enrollment)
    (h : mfind σ.store id = some e0) :
    DeleteEnrollment σ id =
      (.ok, { store := mdel σ.store id, cache := EnrollmentCache.Delete σ.cache id })
    ∧ GetEnrollment
        { store := mdel σ.store id, cache := EnrollmentCache.Delete σ.cache id } id =
      (.notFound, { store := mdel σ.store id, cache := EnrollmentCache.Delete σ.cache id })
    ∧ DeleteEnrollment
        { store := mdel σ.store id, cache := EnrollmentCache.Delete σ.cache id } id =
      (.notFound,
       { store := mdel σ.store id, cache := EnrollmentCache.Delete σ.cache id }) := by
  refine ⟨?_, ?_, ?_⟩
  · simp [DeleteEnrollment, EnrollmentRepository.Delete, h]
  · simp [GetEnrollment, EnrollmentCache.Get, EnrollmentCache.Delete,
      EnrollmentRepository.GetByID, mfind_mdel_self]
  · simp [DeleteEnrollment, EnrollmentRepository.Delete, mfind_mdel_self]

theorem C7_delete_then_notFound_witness :
    DeleteEnrollment wState "e1" =
      (.ok, { store := mdel wState.store "e1", cache := EnrollmentCache.Delete wState.cache "e1" })
    ∧ GetEnrollment
        { store := mdel wState.store "e1", cache := EnrollmentCache.Delete wState.cache "e1" }
        "e1" =
      (.notFound,
       { store := mdel wState.store "e1", cache := EnrollmentCache.Delete wState.cache "e1" })
    ∧ DeleteEnrollment
        { store := mdel wState.store "e1", cache := EnrollmentCache.Delete wState.cache "e1" }
        "e1" =
      (.notFound,
       { store := mdel wState.store "e1", cache := EnrollmentCache.Delete wState.cache "e1" }) :=
  C7_delete_then_notFound wState "e1" wEnr (by decide)
